import Mathlib

/-
Verification of the diff-review pipeline of the AiReviewPR repository.

The development shallowly embeds the pipeline code: the pattern filter and
inclusion policy (`doesAnyPatternMatch`, the scoping checks of
`getPrDiffContext` / `getHeadDiffContext`), the per-file diff truncation,
the generic retry executor `withRetry`, the prompt truncation and request
building of `aiGenerate`, the comment publisher `pushComments`, and the
orchestrator loop of `aiCheckDiffContext` with its success/error counters.

External effects (regular-expression matching, git subprocesses, HTTP
requests, timers) are modelled as explicit data: a regex is a pair of the
fact whether it compiles and its match predicate; fallible externals are
functions into `Except`; a timed wait is recorded as the delay value the
code would pass to `setTimeout`, so that a run returns the list of delays
it performed.
-/

set_option maxRecDepth 4000

namespace AiReviewPR

/-- A JavaScript regular expression, modelled abstractly: `compiles` says
whether `new RegExp(pattern)` succeeds, and `test` is the partial-match
predicate `regex.test` of the compiled regex. -/
structure Pattern where
  compiles : Bool
  test : String → Bool

/-- JavaScript truthiness of a string-valued value that may be absent
(`undefined`/missing environment variable is `none`; the empty string is
falsy). -/
def truthy : Option String → Bool
  | none => false
  | some s => !s.isEmpty

/-- JavaScript `trim()`: the string with leading and trailing whitespace
characters removed, modelled directly on the character list. -/
def jsTrim (s : String) : String :=
  ⟨((s.data.dropWhile Char.isWhitespace).reverse.dropWhile
      Char.isWhitespace).reverse⟩

/-- Function `doesAnyPatternMatch` from `src/utils.ts` lines 42-62: returns `false`
for an empty pattern list or empty candidate; otherwise tests the candidate
against each pattern, where a pattern that fails to compile is caught and
contributes `false`. -/
def doesAnyPatternMatch (patterns : List Pattern) (str : String) : Bool :=
  if patterns.isEmpty then false
  else if str.isEmpty then false
  else patterns.any fun pattern =>
    if pattern.compiles then pattern.test str else false

/-- The file-inclusion decision of the older pipeline variant
(`getPrDiffContext`, part_000 lines 177-184): the file is skipped when the
include list is non-empty and does not match, or when the exclude list is
non-empty and matches. -/
def inScope_v0 (includeFiles excludeFiles : List Pattern) (file : String) : Bool :=
  if includeFiles.length > 0 && !doesAnyPatternMatch includeFiles file then false
  else if excludeFiles.length > 0 && doesAnyPatternMatch excludeFiles file then false
  else true

/-- The file-inclusion decision of the enhanced pipeline variant
(`getPrDiffContext`, part_001 lines 541-549), transcribed separately from
its own source text. -/
def inScope_v1 (includeFiles excludeFiles : List Pattern) (file : String) : Bool :=
  if includeFiles.length > 0 && !doesAnyPatternMatch includeFiles file then false
  else if excludeFiles.length > 0 && doesAnyPatternMatch excludeFiles file then false
  else true

/-- The truncation marker appended to over-long per-file diffs
(part_001 lines 560-562). -/
def truncMarker : String := "\n... [diff truncated for length]"

/-- The per-file diff size cap of the enhanced collector
(part_001 lines 558-568 and 624-634): diffs longer than 10000 characters
are cut to the first 10000 characters plus `truncMarker`. -/
def limitDiff (fileDiffOutput : String) : String :=
  if fileDiffOutput.length > 10000 then
    fileDiffOutput.take 10000 ++ truncMarker
  else fileDiffOutput

/-! ## Pattern filter and inclusion policy (claims C4, C5, C10) -/

theorem string_length_eq_data_length (s : String) : s.length = s.data.length := rfl

theorem string_take_append_left (a b : String) (n : Nat) (h : a.length = n) :
    (a ++ b).take n = a := by
  apply String.ext
  rw [String.take_eq, String.data_append]
  exact List.take_left' h

theorem string_isEmpty_false_of_ne {s : String} (h : s ≠ "") : s.isEmpty = false := by
  rw [Bool.eq_false_iff]
  intro he
  exact h ((String.isEmpty_iff s).mp he)

/-- Characterization of the pattern filter on a non-empty candidate. -/
theorem doesAnyPatternMatch_iff (P : List Pattern) (F : String) :
    doesAnyPatternMatch P F = true ↔
      F ≠ "" ∧ ∃ p ∈ P, p.compiles = true ∧ p.test F = true := by
  unfold doesAnyPatternMatch
  by_cases hF : F = ""
  · subst hF
    simp [String.isEmpty_iff]
  · have hFe : F.isEmpty = false := string_isEmpty_false_of_ne hF
    cases P with
    | nil => simp
    | cons a l =>
      simp only [List.isEmpty_cons, Bool.false_eq_true, if_false, hFe,
        List.any_eq_true]
      constructor
      · rintro ⟨p, hp, hcond⟩
        by_cases hc : p.compiles = true
        · exact ⟨hF, p, hp, hc, by simpa [hc] using hcond⟩
        · rw [if_neg hc] at hcond
          cases hcond
      · rintro ⟨-, p, hp, hc, ht⟩
        exact ⟨p, hp, by simp [hc, ht]⟩

theorem doesAnyPatternMatch_ne_nil {P : List Pattern} {F : String}
    (h : doesAnyPatternMatch P F = true) : P ≠ [] := by
  rintro rfl
  simp [doesAnyPatternMatch] at h

/-- C5: for every pattern list P and candidate F, `matches([], F) = false`
and `matches(P, "") = false`; otherwise the result is true iff some pattern
compiles and partially matches F; a non-compiling pattern contributes
`false` only, never raises, and the result equals the result with that
pattern absent. -/
theorem doesAnyPatternMatch_spec (P l₁ l₂ : List Pattern) (bad : Pattern)
    (F : String) :
    doesAnyPatternMatch [] F = false ∧
    doesAnyPatternMatch P "" = false ∧
    (doesAnyPatternMatch P F = true ↔
      F ≠ "" ∧ ∃ p ∈ P, p.compiles = true ∧ p.test F = true) ∧
    (bad.compiles = false →
      doesAnyPatternMatch (l₁ ++ bad :: l₂) F =
        doesAnyPatternMatch (l₁ ++ l₂) F) := by
  refine ⟨rfl, ?_, doesAnyPatternMatch_iff P F, ?_⟩
  · by_cases hP : P = []
    · subst hP; rfl
    · cases P with
      | nil => rfl
      | cons a l => simp [doesAnyPatternMatch, String.isEmpty_iff]
  · intro hbad
    rw [← Bool.coe_iff_coe, doesAnyPatternMatch_iff, doesAnyPatternMatch_iff]
    constructor
    · rintro ⟨hF, p, hp, hc, ht⟩
      refine ⟨hF, p, ?_, hc, ht⟩
      rcases List.mem_append.mp hp with hmem | hmem
      · exact List.mem_append.mpr (Or.inl hmem)
      · rcases List.mem_cons.mp hmem with rfl | hmem
        · rw [hbad] at hc; cases hc
        · exact List.mem_append.mpr (Or.inr hmem)
    · rintro ⟨hF, p, hp, hc, ht⟩
      refine ⟨hF, p, ?_, hc, ht⟩
      rcases List.mem_append.mp hp with hmem | hmem
      · exact List.mem_append.mpr (Or.inl hmem)
      · exact List.mem_append.mpr (Or.inr (List.mem_cons.mpr (Or.inr hmem)))

/-- C4: file-inclusion policy of the enhanced collector: a file is in scope
iff (include empty or include matches) and exclude does not match; a file
matched by both include and exclude is excluded; with both sets empty every
file is in scope. -/
theorem inclusionPolicy_spec (I E : List Pattern) (F : String) :
    (inScope_v1 I E F = true ↔
      ((I = [] ∨ doesAnyPatternMatch I F = true) ∧
        doesAnyPatternMatch E F = false)) ∧
    (doesAnyPatternMatch I F = true → doesAnyPatternMatch E F = true →
      inScope_v1 I E F = false) ∧
    inScope_v1 [] [] F = true := by
  have hiff : inScope_v1 I E F = true ↔
      ((I = [] ∨ doesAnyPatternMatch I F = true) ∧
        doesAnyPatternMatch E F = false) := by
    unfold inScope_v1
    cases hI : doesAnyPatternMatch I F <;> cases hE : doesAnyPatternMatch E F
    · rcases eq_or_ne I [] with rfl | hIne
      · simp
      · simp [List.length_pos.mpr hIne, hI, hIne]
    · have hEne : E ≠ [] := doesAnyPatternMatch_ne_nil hE
      rcases eq_or_ne I [] with rfl | hIne
      · simp [List.length_pos.mpr hEne, hE]
      · simp [List.length_pos.mpr hIne, hI, hIne]
    · simp [hI, hE]
    · have hEne : E ≠ [] := doesAnyPatternMatch_ne_nil hE
      simp [hI, hE, List.length_pos.mpr hEne]
  refine ⟨hiff, ?_, by simp [inScope_v1, doesAnyPatternMatch]⟩
  intro hI hE
  rw [Bool.eq_false_iff]
  intro htrue
  rcases (hiff.mp htrue) with ⟨-, hfalse⟩
  rw [hE] at hfalse
  cases hfalse

/-- C4 witness: with include = exclude = a single always-matching compiled
pattern, the file "a.ts" matches both lists and is excluded; with both
lists empty it is in scope. -/
theorem inclusionPolicy_spec_witness :
    doesAnyPatternMatch [Pattern.mk true fun _ => true] "a.ts" = true ∧
    inScope_v1 [Pattern.mk true fun _ => true]
      [Pattern.mk true fun _ => true] "a.ts" = false ∧
    inScope_v1 [] [] "a.ts" = true := by
  refine ⟨rfl, ?_, ?_⟩
  · exact (inclusionPolicy_spec [Pattern.mk true fun _ => true]
      [Pattern.mk true fun _ => true] "a.ts").2.1 rfl rfl
  · exact (inclusionPolicy_spec [] [] "a.ts").2.2

/-- C5 witness: a non-compiling pattern in front of a compiling,
matching one leaves the result unchanged relative to the list without it. -/
theorem doesAnyPatternMatch_spec_witness :
    (Pattern.mk false fun _ => true).compiles = false ∧
    doesAnyPatternMatch
      ([] ++ Pattern.mk false (fun _ => true) ::
        [Pattern.mk true fun s => s == "a.ts"]) "a.ts" =
      doesAnyPatternMatch ([] ++ [Pattern.mk true fun s => s == "a.ts"]) "a.ts" :=
  ⟨rfl, (doesAnyPatternMatch_spec [] [] [Pattern.mk true fun s => s == "a.ts"]
    (Pattern.mk false fun _ => true) "a.ts").2.2.2 rfl⟩

/-- C10: the older and the enhanced pipeline variants make identical
file-inclusion decisions for every pattern configuration and file path. -/
theorem inclusion_variants_agree (I E : List Pattern) (F : String) :
    inScope_v0 I E F = inScope_v1 I E F := rfl

/-! ## Diff truncation (claim C6) -/

/-- C6: a diff longer than 10000 characters is stored as its first 10000
characters followed by the truncation marker; a diff of at most 10000
characters is stored unchanged; the truncation is idempotent. -/
theorem limitDiff_spec (D : String) :
    (D.length ≤ 10000 → limitDiff D = D) ∧
    (10000 < D.length → limitDiff D = D.take 10000 ++ truncMarker) ∧
    limitDiff (limitDiff D) = limitDiff D := by
  refine ⟨fun h => by simp [limitDiff, Nat.not_lt.mpr h], fun h => by simp [limitDiff, h], ?_⟩
  by_cases h : 10000 < D.length
  · have h1 : limitDiff D = D.take 10000 ++ truncMarker := by simp [limitDiff, h]
    have hlen : (D.take 10000).length = 10000 := by
      rw [String.take_eq]
      simpa using Nat.min_eq_left (Nat.le_of_lt h)
    have h2 : (D.take 10000 ++ truncMarker).length = 10000 + truncMarker.length := by
      rw [String.length_append, hlen]
    have h3 : (D.take 10000 ++ truncMarker).take 10000 = D.take 10000 :=
      string_take_append_left _ _ _ hlen
    have hmlen : truncMarker.length = 32 := rfl
    have hgt : (D.take 10000 ++ truncMarker).length > 10000 := by
      rw [h2, hmlen]; omega
    rw [h1]
    simp only [limitDiff]
    rw [if_pos hgt, h3]
  · simp [limitDiff, h]

/-- C6 witness: a three-character diff is at most the cap and is stored
unchanged; re-truncating a concrete diff changes nothing. -/
theorem limitDiff_spec_witness :
    ("abc" : String).length ≤ 10000 ∧ limitDiff "abc" = "abc" :=
  ⟨by decide, (limitDiff_spec "abc").1 (by decide)⟩

/-! ## Resilient operation executor (claim C3)

`withRetry` from part_001 lines 340-378 (the part_000 variant, lines
51-70, is the special case `useExponentialBackoff = false` and never
passes `true`). The asynchronous `operation` is modelled as a function
from the attempt number (starting at 1) to an `Except` outcome; an
invocation of `withRetry` returns the final outcome together with the
list of delays (in milliseconds) passed to `setTimeout`, in order. The
`lastError` variable is declared without an initializer in the source,
so it is modelled as `Option ε`, and exhausting the loop re-raises it. -/

/-- The wait computed before a retry that follows failed attempt number
`attempt` (part_001 lines 365-368). -/
def backoffDelay (retryDelay : Nat) (useExponentialBackoff : Bool)
    (attempt : Nat) : Nat :=
  if useExponentialBackoff then retryDelay * 2 ^ (attempt - 1) else retryDelay

/-- The retry loop of `withRetry`, one iteration per call: try
`operation attempt`; on success return its value with no further delays;
on failure record the delay (when attempts remain) and continue with the
error remembered as `lastError`; when attempts are exhausted re-raise
`lastError`. -/
def withRetryGo (operation : Nat → Except ε α) (maxRetries retryDelay : Nat)
    (useExponentialBackoff : Bool) (lastError : Option ε) (attempt : Nat) :
    Except (Option ε) α × List Nat :=
  if _h : attempt ≤ maxRetries then
    match operation attempt with
    | .ok v => (.ok v, [])
    | .error e =>
      let ds := if attempt < maxRetries then
        [backoffDelay retryDelay useExponentialBackoff attempt] else []
      let rest := withRetryGo operation maxRetries retryDelay
        useExponentialBackoff (some e) (attempt + 1)
      (rest.1, ds ++ rest.2)
  else
    (.error lastError, [])
termination_by maxRetries + 1 - attempt
decreasing_by omega

/-- Entry point `withRetry(operation, operationName, maxRetries, useExponentialBackoff)`:
the loop starts at attempt 1 with no error observed yet. The
`operationName` argument only affects logging and is omitted. -/
def withRetry (operation : Nat → Except ε α) (maxRetries retryDelay : Nat)
    (useExponentialBackoff : Bool) : Except (Option ε) α × List Nat :=
  withRetryGo operation maxRetries retryDelay useExponentialBackoff none 1

theorem withRetryGo_ok (operation : Nat → Except ε α)
    (maxRetries retryDelay : Nat) (ue : Bool) (le : Option ε) (a : Nat) (v : α)
    (ha : a ≤ maxRetries) (hop : operation a = .ok v) :
    withRetryGo operation maxRetries retryDelay ue le a = (.ok v, []) := by
  rw [withRetryGo]
  simp [ha, hop]

theorem withRetryGo_ok_after (operation : Nat → Except ε α)
    (maxRetries retryDelay : Nat) (ue : Bool) (v : α) :
    ∀ j a le, a + j ≤ maxRetries →
      (∀ i, a ≤ i → i < a + j → ∃ e, operation i = .error e) →
      operation (a + j) = .ok v →
      withRetryGo operation maxRetries retryDelay ue le a =
        (.ok v, (List.range j).map fun i =>
          backoffDelay retryDelay ue (a + i)) := by
  intro j
  induction j with
  | zero =>
    intro a le hle _ hok
    simpa using withRetryGo_ok operation maxRetries retryDelay ue le a v
      (by omega) (by simpa using hok)
  | succ j ih =>
    intro a le hle hfail hok
    obtain ⟨e, he⟩ := hfail a (Nat.le_refl a) (by omega)
    rw [withRetryGo]
    have ha : a ≤ maxRetries := by omega
    have halt : a < maxRetries := by omega
    simp only [ha, dif_pos, he, halt, if_pos]
    have hrest := ih (a + 1) (some e) (by omega)
      (fun i h1 h2 => hfail i (by omega) (by omega))
      (by have : a + 1 + j = a + (j + 1) := by omega
          rw [this]; exact hok)
    rw [hrest]
    simp only [List.range_succ_eq_map, List.map_cons, List.map_map,
      List.singleton_append, Prod.mk.injEq, Nat.add_zero, List.cons.injEq]
    refine ⟨trivial, trivial, ?_⟩
    exact List.map_congr_left fun i _ => by
      simp only [Function.comp_apply]
      congr 1
      omega

theorem withRetryGo_all_fail (operation : Nat → Except ε α)
    (maxRetries retryDelay : Nat) (ue : Bool) (e : ε) :
    ∀ d a le, maxRetries = a + d →
      (∀ i, a ≤ i → i < maxRetries → ∃ e, operation i = .error e) →
      operation maxRetries = .error e →
      withRetryGo operation maxRetries retryDelay ue le a =
        (.error (some e), (List.range d).map fun i =>
          backoffDelay retryDelay ue (a + i)) := by
  intro d
  induction d with
  | zero =>
    intro a le hmr _ hlast
    have ha : a = maxRetries := by omega
    subst ha
    rw [withRetryGo]
    simp only [Nat.le_refl, dif_pos, hlast, Nat.lt_irrefl, if_neg,
      Nat.not_lt.mpr (Nat.le_refl a)]
    rw [withRetryGo]
    simp [show ¬(a + 1 ≤ a) by omega]
  | succ d ih =>
    intro a le hmr hfail hlast
    obtain ⟨e₀, he₀⟩ := hfail a (Nat.le_refl a) (by omega)
    rw [withRetryGo]
    have ha : a ≤ maxRetries := by omega
    have halt : a < maxRetries := by omega
    simp only [ha, dif_pos, he₀, halt, if_pos]
    have hrest := ih (a + 1) (some e₀) (by omega)
      (fun i h1 h2 => hfail i (by omega) h2) hlast
    rw [hrest]
    simp only [List.range_succ_eq_map, List.map_cons, List.map_map,
      List.singleton_append, Prod.mk.injEq, Nat.add_zero, List.cons.injEq]
    refine ⟨trivial, trivial, ?_⟩
    exact List.map_congr_left fun i _ => by
      simp only [Function.comp_apply]
      congr 1
      omega

/-- C3: with `maxAttempts ≥ 1`, `withRetry` returns the first success with
zero delays; after k failures followed by a success (k < maxAttempts) it
succeeds with exactly k delays; after maxAttempts failures it raises the
final error with exactly maxAttempts - 1 delays; the i-th delay (after
attempt i) is `baseDelay * 2^(i-1)` under exponential backoff and the
fixed `baseDelay` otherwise. -/
theorem withRetry_spec (operation : Nat → Except ε α)
    (maxRetries retryDelay : Nat) (ue : Bool) (hmax : 1 ≤ maxRetries) :
    (∀ v, operation 1 = .ok v →
      withRetry operation maxRetries retryDelay ue = (.ok v, [])) ∧
    (∀ k v, k < maxRetries →
      (∀ i, 1 ≤ i → i ≤ k → ∃ e, operation i = .error e) →
      operation (k + 1) = .ok v →
      withRetry operation maxRetries retryDelay ue =
        (.ok v, (List.range k).map fun i =>
          if ue then retryDelay * 2 ^ i else retryDelay)) ∧
    (∀ e, (∀ i, 1 ≤ i → i < maxRetries → ∃ e, operation i = .error e) →
      operation maxRetries = .error e →
      withRetry operation maxRetries retryDelay ue =
        (.error (some e), (List.range (maxRetries - 1)).map fun i =>
          if ue then retryDelay * 2 ^ i else retryDelay)) := by
  have hdelay : ∀ i : Nat, backoffDelay retryDelay ue (1 + i) =
      if ue then retryDelay * 2 ^ i else retryDelay := by
    intro i
    unfold backoffDelay
    rw [show 1 + i - 1 = i from by omega]
  refine ⟨?_, ?_, ?_⟩
  · intro v hok
    exact withRetryGo_ok operation maxRetries retryDelay ue none 1 v hmax hok
  · intro k v hk hfail hok
    unfold withRetry
    rw [withRetryGo_ok_after operation maxRetries retryDelay ue v k 1 none
      (by omega) (fun i h1 h2 => hfail i h1 (by omega))
      (by rw [show 1 + k = k + 1 by omega]; exact hok)]
    congr 1
    exact List.map_congr_left fun i _ => hdelay i
  · intro e hfail hlast
    unfold withRetry
    rw [withRetryGo_all_fail operation maxRetries retryDelay ue e
      (maxRetries - 1) 1 none (by omega) (fun i h1 h2 => hfail i h1 h2) hlast]
    congr 1
    exact List.map_congr_left fun i _ => hdelay i

/-- C3 witness: an operation failing on attempts 1 and 2 and succeeding on
attempt 3, run with maxAttempts 3 and exponential backoff over base 100,
succeeds after delays of 100 then 200 milliseconds. -/
theorem withRetry_spec_witness :
    withRetry (fun i => if i < 3 then Except.error 0 else Except.ok 7)
      3 100 true = (Except.ok 7, [100, 200]) := by
  rw [(withRetry_spec (fun i => if i < 3 then Except.error 0 else Except.ok 7)
    3 100 true (by decide)).2.1 2 7 (by decide)
    (fun i h1 h2 => ⟨0, by
      have hi : i = 1 ∨ i = 2 := by omega
      rcases hi with rfl | rfl <;> rfl⟩)
    (by rfl)]
  rfl

/-! ## Data model of the pipeline -/

/-- One changed file diff, a path plus context pair as pushed by the
collectors. -/
structure DiffItem where
  path : String
  context : String
deriving DecidableEq

/-- The parsed JSON body returned by the generation endpoint. The three
fields the code inspects are modelled as optional strings (absent field =
`none`; JavaScript truthiness is `truthy`). -/
structure AiBody where
  error : Option String
  detail : Option String
  response : Option String
deriving DecidableEq

/-- The failure modes of one generation attempt: `transport` covers a
rejected `post` (network error, non-2xx status, malformed body); the
remaining constructors are the explicit validation throws of `aiGenerate`
(part_001 lines 489-504). -/
inductive GenError where
  | emptyPrompt
  | emptyResponse
  | serviceError (msg : String)
  | detailError (msg : String)
  | noContent
  | transport (msg : String)
deriving DecidableEq

/-- A publish outcome value: the parsed JSON of the comment endpoint (its
`id` field may be absent) or the local-log result. -/
structure PublishResult where
  id : Option String
  success : Bool
deriving DecidableEq

/-- Failure modes of `pushComments`: a missing-configuration throw or a
failed network `post`. -/
inductive PubError where
  | missingConfig (msg : String)
  | network (msg : String)
deriving DecidableEq

def exceptIsOk : Except ε α → Bool
  | .ok _ => true
  | .error _ => false

def exceptIsErr : Except ε α → Bool
  | .ok _ => false
  | .error _ => true

/-! ## Prompt truncation and generation request (claims C9, C7) -/

/-- Function `truncatePrompt` from part_001 lines 423-445: a prompt within
`maxLength` is returned unchanged; otherwise, when the prompt has more
than 10 lines and keeping the first 5 and last 5 lines around a notice
fits within `maxLength`, that form is returned; otherwise the first
`maxLength - 50` characters plus an ellipsis notice. -/
def truncatePrompt (prompt : String) (maxLength : Nat) : String :=
  if prompt.length ≤ maxLength then prompt
  else
    let lines := prompt.splitOn "\n"
    let fallback := prompt.take (maxLength - 50) ++
      "\n\n[... truncated for length ...]"
    if lines.length > 10 then
      let header := String.intercalate "\n" (lines.take 5)
      let footer := String.intercalate "\n" (lines.drop (lines.length - 5))
      let truncated := header ++
        "\n\n[... content truncated for length ...]\n\n" ++ footer
      if truncated.length ≤ maxLength then truncated else fallback
    else fallback

/-- The generation request built by the enhanced `aiGenerate`
(part_001 lines 453-469); the fixed sampling options are constants and
omitted. `config.maxPromptLength = 8000` is the default `maxLength` of
`truncatePrompt`. -/
structure GenerationRequest where
  prompt : String
  model : String
  system : String
deriving DecidableEq

def buildGenerationRequest (prompt modelName system : String) :
    GenerationRequest :=
  { prompt := truncatePrompt (jsTrim prompt) 8000
    model := modelName
    system := system }

/-- Response validation performed inside the retried operation of
`aiGenerate` (part_001 lines 488-506): an absent body, a truthy `error`
or `detail` field, or a missing/empty `response` field is a thrown
generation failure; otherwise the body is returned. -/
def validateAiBody : Option AiBody → Except GenError AiBody
  | none => .error .emptyResponse
  | some response =>
    if truthy response.error then
      .error (.serviceError (response.error.getD ""))
    else if truthy response.detail then
      .error (.detailError (response.detail.getD ""))
    else if !truthy response.response then
      .error .noContent
    else .ok response

/-- One attempt of the retried operation of `aiGenerate`: the HTTP `post`
(abstracted as `attemptPost`, indexed by the attempt number) followed by
response validation. -/
def aiAttempt (attemptPost : GenerationRequest → Nat → Except GenError (Option AiBody))
    (requestData : GenerationRequest) (attempt : Nat) : Except GenError AiBody :=
  match attemptPost requestData attempt with
  | .error e => .error e
  | .ok response => validateAiBody response

/-- Function `aiGenerate` from part_001 lines 448-508: an empty trimmed prompt is
rejected by a throw before `withRetry` is ever invoked; otherwise the
request is built from the truncated prompt and the post-plus-validation
operation runs under `withRetry(…, "AI generation", 2, true)` with the
configured base delay of 5000 ms. -/
def aiGenerate (attemptPost : GenerationRequest → Nat → Except GenError (Option AiBody))
    (prompt modelName system : String) :
    Except (Option GenError) AiBody × List Nat :=
  if (jsTrim prompt).isEmpty then (.error (some .emptyPrompt), [])
  else
    let requestData := buildGenerationRequest prompt modelName system
    withRetry (aiAttempt attemptPost requestData) 2 5000 true

/-! ## Comment publisher (claim C8) -/

/-- The environment configuration read by `pushComments`; `none` models an
unset variable. -/
structure PublishEnv where
  pullRequestNumber : Option String
  repository : Option String
  token : Option String
deriving DecidableEq

/-- The local-log success result returned when no pull-request number is
configured (part_001 line 387). -/
def localLogResult : PublishResult := { id := some "local-log", success := true }

/-- Function `pushComments` from part_001 lines 381-420: with no pull-request
number the comment is logged and the local success returned, with no
network call; with a number but missing repository or token a
configuration error is thrown before `withRetry`; otherwise the comment
is posted through `withRetry` with the default 3 attempts and fixed
5000 ms delay (the endpoint URL computation only feeds the abstracted
network call and logging). -/
def pushComments (env : PublishEnv)
    (netPost : String → Nat → Except PubError PublishResult) (message : String) :
    Except (Option PubError) PublishResult × List Nat :=
  if !truthy env.pullRequestNumber then (.ok localLogResult, [])
  else if !truthy env.repository || !truthy env.token then
    (.error (some (.missingConfig
      "Missing required environment variables: INPUT_REPOSITORY or INPUT_TOKEN")), [])
  else withRetry (netPost message) 3 5000 false

/-! ## Review orchestrator (claims C1, C2) -/

/-- Per-item failure as caught by the orchestrator try/catch
(part_001 lines 679-737): a generation failure, a publish failure, or the
missing-response-id throw after a publish that resolved. -/
inductive ItemError where
  | genError (e : Option GenError)
  | pubError (e : Option PubError)
  | noResponseId
deriving DecidableEq

/-- Fence cleanup of the model output (part_001 lines 698-704). -/
def stripMarkdownFence (response : String) : String :=
  if response.startsWith "```markdown" then
    let commit := response.drop ("```markdown".length)
    if commit.endsWith "```" then commit.take (commit.length - 3) else commit
  else response

/-- The comment body built for one item (part_001 lines 706-718):
title, file link, model, timestamp, trimmed body, disclaimer footer. -/
def formatComment (commitShaUrl modelName timestamp : String)
    (item : DiffItem) (commit : String) : String :=
  "# 🤖 AI Code Review\n**File:** [" ++ item.path ++ "](" ++ commitShaUrl ++
    "/" ++ item.path ++ ")\n**Model:** " ++ modelName ++
    "\n**Reviewed at:** " ++ timestamp ++ "\n\n" ++ jsTrim commit ++
    "\n\n---\n*This review was generated automatically by AI. Please review the suggestions carefully before implementing.*"

/-- The body of one iteration of the review loop (part_001 lines 686-728):
generate, strip the fence, format, publish, and require a truthy response
id; the failure of any stage is a failure of the item. `aiGen` abstracts the full
`aiGenerate` call on the diff text of the item (returning the validated
response text), `publish` the full `pushComments` call. -/
def processItem (aiGen : String → Except (Option GenError) String)
    (publish : String → Except (Option PubError) PublishResult)
    (commitShaUrl modelName timestamp : String)
    (item : DiffItem) : Except ItemError PublishResult :=
  match aiGen item.context with
  | .error e => .error (.genError e)
  | .ok text =>
    let commit := stripMarkdownFence text
    let comments := formatComment commitShaUrl modelName timestamp item commit
    match publish comments with
    | .error e => .error (.pubError e)
    | .ok resp =>
      if truthy resp.id then .ok resp else .error .noResponseId

/-- The running counters and failed-file list of `aiCheckDiffContext`
(part_001 lines 671-673). -/
structure RunState where
  successCount : Nat
  errorCount : Nat
  failedFiles : List String
deriving DecidableEq

/-- The per-item loop of `aiCheckDiffContext` (part_001 lines 675-738):
each item either increments `successCount`, or increments `errorCount`
and appends the path of the item to `failedFiles`, and the loop always
continues to the next item. -/
def reviewLoopGo (process : DiffItem → Except ItemError PublishResult) :
    RunState → List DiffItem → RunState
  | st, [] => st
  | st, item :: rest =>
    match process item with
    | .ok _ =>
      reviewLoopGo process { st with successCount := st.successCount + 1 } rest
    | .error _ =>
      reviewLoopGo process
        { st with errorCount := st.errorCount + 1,
                  failedFiles := st.failedFiles ++ [item.path] } rest

def reviewLoop (process : DiffItem → Except ItemError PublishResult)
    (items : List DiffItem) : RunState :=
  reviewLoopGo process ⟨0, 0, []⟩ items

/-- The collector loop shared by `getPrDiffContext` and
`getHeadDiffContext` in part_001 (lines 537-577 and 605-639): blank names
are skipped, the include/exclude policy is applied, a failed per-file git
diff (abstracted as `getFileDiff`) is logged and skipped, an empty diff is
skipped, and a surviving diff is pushed after the size cap. -/
def collectGo (includeFiles excludeFiles : List Pattern)
    (getFileDiff : String → Except String String) :
    List DiffItem → List String → List DiffItem
  | items, [] => items
  | items, file :: rest =>
    if (jsTrim file).isEmpty then
      collectGo includeFiles excludeFiles getFileDiff items rest
    else if includeFiles.length > 0 && !doesAnyPatternMatch includeFiles file then
      collectGo includeFiles excludeFiles getFileDiff items rest
    else if excludeFiles.length > 0 && doesAnyPatternMatch excludeFiles file then
      collectGo includeFiles excludeFiles getFileDiff items rest
    else
      match getFileDiff file with
      | .error _ => collectGo includeFiles excludeFiles getFileDiff items rest
      | .ok fileDiffOutput =>
        if (jsTrim fileDiffOutput).isEmpty then
          collectGo includeFiles excludeFiles getFileDiff items rest
        else
          collectGo includeFiles excludeFiles getFileDiff
            (items ++ [{ path := file, context := limitDiff fileDiffOutput }]) rest

def collectDiffs (includeFiles excludeFiles : List Pattern)
    (getFileDiff : String → Except String String) (files : List String) :
    List DiffItem :=
  collectGo includeFiles excludeFiles getFileDiff [] files

/-- The outcome classification of `aiCheckDiffContext` after collection
(part_001 lines 664-667 and 746-757): zero items returns early with
success; otherwise the loop runs and the run throws exactly when every
item failed. -/
def runReview (process : DiffItem → Except ItemError PublishResult)
    (items : List DiffItem) : Except String RunState :=
  if items.length = 0 then .ok ⟨0, 0, []⟩
  else
    let st := reviewLoop process items
    if 0 < st.errorCount ∧ st.successCount = 0 then
      .error ("All " ++ toString items.length ++
        " files failed to be reviewed. Please check Ollama connectivity and configuration.")
    else .ok st

theorem reviewLoopGo_spec (process : DiffItem → Except ItemError PublishResult)
    (items : List DiffItem) : ∀ st : RunState,
    reviewLoopGo process st items =
      { successCount := st.successCount +
          (items.filter fun it => exceptIsOk (process it)).length,
        errorCount := st.errorCount +
          (items.filter fun it => exceptIsErr (process it)).length,
        failedFiles := st.failedFiles ++
          (items.filter fun it => exceptIsErr (process it)).map DiffItem.path } := by
  induction items with
  | nil => intro st; simp [reviewLoopGo]
  | cons item rest ih =>
    intro st
    cases hp : process item with
    | ok v =>
      have hok : exceptIsOk (Except.ok v : Except ItemError PublishResult) = true := rfl
      have herr : exceptIsErr (Except.ok v : Except ItemError PublishResult) = false := rfl
      simp only [reviewLoopGo, hp, ih, List.filter_cons, hok, herr,
        Bool.false_eq_true, if_true, if_false, List.length_cons,
        RunState.mk.injEq]
      refine ⟨?_, ?_, ?_⟩ <;> first | trivial | omega
    | error e =>
      have hok : exceptIsOk (Except.error e : Except ItemError PublishResult) = false := rfl
      have herr : exceptIsErr (Except.error e : Except ItemError PublishResult) = true := rfl
      simp only [reviewLoopGo, hp, ih, List.filter_cons, hok, herr,
        Bool.false_eq_true, if_true, if_false, List.length_cons,
        List.map_cons, RunState.mk.injEq]
      refine ⟨?_, ?_, ?_⟩ <;> first | trivial | omega | simp

theorem collectGo_inScope (includeFiles excludeFiles : List Pattern)
    (getFileDiff : String → Except String String) (files : List String) :
    ∀ acc, (∀ it ∈ acc, inScope_v1 includeFiles excludeFiles it.path = true) →
      ∀ it ∈ collectGo includeFiles excludeFiles getFileDiff acc files,
        inScope_v1 includeFiles excludeFiles it.path = true := by
  induction files with
  | nil => intro acc hacc it hit; exact hacc it hit
  | cons file rest ih =>
    intro acc hacc
    show ∀ it ∈ collectGo includeFiles excludeFiles getFileDiff acc (file :: rest), _
    cases h1 : (jsTrim file).isEmpty
    · cases h2 : includeFiles.length > 0 && !doesAnyPatternMatch includeFiles file
      · cases h3 : excludeFiles.length > 0 && doesAnyPatternMatch excludeFiles file
        · cases h4 : getFileDiff file with
          | error e =>
            simp only [collectGo, h1, h2, h3, h4, Bool.false_eq_true, if_false]
            exact ih acc hacc
          | ok fileDiffOutput =>
            cases h5 : (jsTrim fileDiffOutput).isEmpty
            · simp only [collectGo, h1, h2, h3, h4, h5, Bool.false_eq_true,
                if_false]
              refine ih _ ?_
              intro it hit
              rcases List.mem_append.mp hit with hmem | hmem
              · exact hacc it hmem
              · rcases List.mem_singleton.mp hmem with rfl
                show inScope_v1 includeFiles excludeFiles file = true
                unfold inScope_v1
                rw [h2, h3]
                rfl
            · simp only [collectGo, h1, h2, h3, h4, h5, Bool.false_eq_true,
                if_false, if_true]
              exact ih acc hacc
        · simp only [collectGo, h1, h2, h3, Bool.false_eq_true, if_false,
            if_true]
          exact ih acc hacc
      · simp only [collectGo, h1, h2, Bool.false_eq_true, if_false, if_true]
        exact ih acc hacc
    · simp only [collectGo, h1, if_true]
      exact ih acc hacc

/-- C1: after the review loop processes the collected items, the counters
satisfy successCount + errorCount = totalCount, where totalCount is the
number of collected DiffItems (each of which survived the inclusion
policy); the failed-paths list holds exactly one entry, the path of the item,
per failing item, and errorCount equals its length. -/
theorem review_run_invariant
    (aiGen : String → Except (Option GenError) String)
    (publish : String → Except (Option PubError) PublishResult)
    (commitShaUrl modelName timestamp : String)
    (includeFiles excludeFiles : List Pattern)
    (getFileDiff : String → Except String String) (files : List String) :
    (reviewLoop (processItem aiGen publish commitShaUrl modelName timestamp)
        (collectDiffs includeFiles excludeFiles getFileDiff files)).successCount +
      (reviewLoop (processItem aiGen publish commitShaUrl modelName timestamp)
        (collectDiffs includeFiles excludeFiles getFileDiff files)).errorCount =
      (collectDiffs includeFiles excludeFiles getFileDiff files).length ∧
    (reviewLoop (processItem aiGen publish commitShaUrl modelName timestamp)
        (collectDiffs includeFiles excludeFiles getFileDiff files)).failedFiles =
      ((collectDiffs includeFiles excludeFiles getFileDiff files).filter
        fun it => exceptIsErr
          (processItem aiGen publish commitShaUrl modelName timestamp it)).map
        DiffItem.path ∧
    (reviewLoop (processItem aiGen publish commitShaUrl modelName timestamp)
        (collectDiffs includeFiles excludeFiles getFileDiff files)).errorCount =
      (reviewLoop (processItem aiGen publish commitShaUrl modelName timestamp)
        (collectDiffs includeFiles excludeFiles getFileDiff files)).failedFiles.length ∧
    ∀ it ∈ collectDiffs includeFiles excludeFiles getFileDiff files,
      inScope_v1 includeFiles excludeFiles it.path = true := by
  set process := processItem aiGen publish commitShaUrl modelName timestamp with hp
  set items := collectDiffs includeFiles excludeFiles getFileDiff files with hi
  have hloop := reviewLoopGo_spec process items ⟨0, 0, []⟩
  have hsplit : (items.filter fun it => exceptIsOk (process it)).length +
      (items.filter fun it => exceptIsErr (process it)).length = items.length := by
    clear hi
    induction items with
    | nil => rfl
    | cons x xs ih =>
      cases hx : process x with
      | ok v =>
        have hok : exceptIsOk (Except.ok v : Except ItemError PublishResult) = true := rfl
        have herr : exceptIsErr (Except.ok v : Except ItemError PublishResult) = false := rfl
        simp only [List.filter_cons, hx, hok, herr, Bool.false_eq_true,
          if_true, if_false, List.length_cons]
        omega
      | error e =>
        have hok : exceptIsOk (Except.error e : Except ItemError PublishResult) = false := rfl
        have herr : exceptIsErr (Except.error e : Except ItemError PublishResult) = true := rfl
        simp only [List.filter_cons, hx, hok, herr, Bool.false_eq_true,
          if_true, if_false, List.length_cons]
        omega
  refine ⟨?_, ?_, ?_, ?_⟩
  · show (reviewLoop process items).successCount +
      (reviewLoop process items).errorCount = items.length
    unfold reviewLoop
    rw [hloop]
    simpa using hsplit
  · show (reviewLoop process items).failedFiles = _
    unfold reviewLoop
    rw [hloop]
    simp
  · show (reviewLoop process items).errorCount =
      (reviewLoop process items).failedFiles.length
    unfold reviewLoop
    rw [hloop]
    simp
  · exact collectGo_inScope includeFiles excludeFiles getFileDiff files []
      (by intro it hit; cases hit)

/-- C1 witness: a single in-scope file whose generation fails yields
counters 0 + 1 = 1 and the file recorded once. -/
theorem review_run_invariant_witness :
    (reviewLoop
        (processItem (fun _ => Except.error none) (fun _ => Except.ok localLogResult)
          "u" "m" "t")
        (collectDiffs [] [] (fun _ => Except.ok "x") ["a.ts"])).successCount +
      (reviewLoop
        (processItem (fun _ => Except.error none) (fun _ => Except.ok localLogResult)
          "u" "m" "t")
        (collectDiffs [] [] (fun _ => Except.ok "x") ["a.ts"])).errorCount =
      (collectDiffs [] [] (fun _ => Except.ok "x") ["a.ts"]).length :=
  (review_run_invariant (fun _ => Except.error none)
    (fun _ => Except.ok localLogResult) "u" "m" "t" [] []
    (fun _ => Except.ok "x") ["a.ts"]).1

/-- C2: zero collected items short-circuits to success; a run with no
per-item errors succeeds; a run where every item failed raises the fatal
all-files-failed error; a run with at least one success and at least one
error completes without raising. -/
theorem run_outcome_classification
    (process : DiffItem → Except ItemError PublishResult)
    (items : List DiffItem) :
    (runReview process [] = .ok ⟨0, 0, []⟩) ∧
    ((reviewLoop process items).errorCount = 0 →
      exceptIsOk (runReview process items) = true) ∧
    ((reviewLoop process items).successCount = 0 →
      0 < (reviewLoop process items).errorCount →
      runReview process items = .error ("All " ++ toString items.length ++
        " files failed to be reviewed. Please check Ollama connectivity and configuration.")) ∧
    (0 < (reviewLoop process items).successCount →
      0 < (reviewLoop process items).errorCount →
      runReview process items = .ok (reviewLoop process items)) := by
  refine ⟨rfl, ?_, ?_, ?_⟩
  · intro herr
    unfold runReview
    by_cases hlen : items.length = 0
    · rw [if_pos hlen]; rfl
    · rw [if_neg hlen, if_neg (by rw [herr]; simp)]
      rfl
  · intro hsucc herr
    have hne : items ≠ [] := by
      rintro rfl
      simp [reviewLoop, reviewLoopGo] at herr
    unfold runReview
    rw [if_neg (by simpa using hne), if_pos ⟨herr, hsucc⟩]
  · intro hsucc herr
    have hne : items ≠ [] := by
      rintro rfl
      simp [reviewLoop, reviewLoopGo] at herr
    unfold runReview
    rw [if_neg (by simpa using hne), if_neg (by rintro ⟨-, h0⟩; omega)]

/-- C2 witness: an empty collection yields the zero-state success, and a
one-item run whose only item fails raises the fatal error. -/
theorem run_outcome_classification_witness :
    runReview (fun _ => Except.error ItemError.noResponseId) [] =
      Except.ok ⟨0, 0, []⟩ ∧
    runReview (fun _ => Except.error ItemError.noResponseId)
        [⟨"a.ts", "x"⟩] =
      Except.error ("All " ++ toString ([⟨"a.ts", "x"⟩] : List DiffItem).length ++
        " files failed to be reviewed. Please check Ollama connectivity and configuration.") :=
  ⟨(run_outcome_classification (fun _ => Except.error ItemError.noResponseId) []).1,
   (run_outcome_classification (fun _ => Except.error ItemError.noResponseId)
      [⟨"a.ts", "x"⟩]).2.2.1 rfl (by decide)⟩

theorem truncatePrompt_length_le (prompt : String) (maxLength : Nat)
    (h : 50 ≤ maxLength) : (truncatePrompt prompt maxLength).length ≤ maxLength := by
  have hmark : ("\n\n[... truncated for length ...]" : String).length = 32 := rfl
  have htake : (prompt.take (maxLength - 50)).length ≤ maxLength - 50 := by
    rw [String.take_eq]
    simp [List.length_take]
  simp only [truncatePrompt]
  split_ifs with h1 h2 h3
  · exact h1
  · exact h3
  · rw [String.length_append, hmark]
    omega
  · rw [String.length_append, hmark]
    omega

/-- C9: for every prompt and every maxLength of at least 50,
`truncatePrompt` returns a string of length at most maxLength, and returns
the prompt itself when it already fits; consequently the prompt field of
every generation request built by the enhanced `aiGenerate` has length at
most the configured 8000. -/
theorem truncatePrompt_spec (prompt : String) :
    (∀ maxLength, 50 ≤ maxLength →
      (truncatePrompt prompt maxLength).length ≤ maxLength ∧
      (prompt.length ≤ maxLength → truncatePrompt prompt maxLength = prompt)) ∧
    ∀ modelName system,
      ((buildGenerationRequest prompt modelName system).prompt).length ≤ 8000 := by
  constructor
  · intro maxLength hL
    refine ⟨truncatePrompt_length_le prompt maxLength hL, fun hp => ?_⟩
    unfold truncatePrompt
    rw [if_pos hp]
  · intro modelName system
    show (truncatePrompt (jsTrim prompt) 8000).length ≤ 8000
    exact truncatePrompt_length_le _ _ (by omega)

/-- C9 witness: a short prompt is returned unchanged and fits the concrete
bound 100. -/
theorem truncatePrompt_spec_witness :
    50 ≤ 100 ∧ (truncatePrompt "abc" 100).length ≤ 100 ∧
      truncatePrompt "abc" 100 = "abc" :=
  ⟨by decide, ((truncatePrompt_spec "abc").1 100 (by decide)).1,
    ((truncatePrompt_spec "abc").1 100 (by decide)).2 (by decide)⟩

/-- C7: an empty trimmed prompt is rejected immediately, with no delays and
independently of the network operation (the retry executor is never
consulted); a body that is absent fails validation, and a present body
fails validation exactly when it carries a truthy error or detail field or
lacks a truthy response field; when both attempts of the executor fail
(e.g. by validation), the run performs the retry limit of 2 attempts,
raises the last error, and has waited once (5000 ms, exponential base). -/
theorem aiGenerate_spec
    (attemptPost attemptPost' : GenerationRequest → Nat → Except GenError (Option AiBody))
    (prompt modelName system : String) :
    ((jsTrim prompt).isEmpty = true →
      aiGenerate attemptPost prompt modelName system =
        (.error (some .emptyPrompt), []) ∧
      aiGenerate attemptPost prompt modelName system =
        aiGenerate attemptPost' prompt modelName system) ∧
    (validateAiBody none = .error .emptyResponse) ∧
    (∀ b : AiBody, exceptIsErr (validateAiBody (some b)) =
      (truthy b.error || truthy b.detail || !truthy b.response)) ∧
    ((jsTrim prompt).isEmpty = false → ∀ e₁ e₂,
      aiAttempt attemptPost (buildGenerationRequest prompt modelName system) 1 =
        .error e₁ →
      aiAttempt attemptPost (buildGenerationRequest prompt modelName system) 2 =
        .error e₂ →
      aiGenerate attemptPost prompt modelName system =
        (.error (some e₂), [5000])) := by
  refine ⟨?_, rfl, ?_, ?_⟩
  · intro h
    have hA : aiGenerate attemptPost prompt modelName system =
        (.error (some .emptyPrompt), []) := by
      unfold aiGenerate
      rw [if_pos h]
    have hB : aiGenerate attemptPost' prompt modelName system =
        (.error (some .emptyPrompt), []) := by
      unfold aiGenerate
      rw [if_pos h]
    exact ⟨hA, hA.trans hB.symm⟩
  · intro b
    unfold validateAiBody
    cases he : truthy b.error
    · cases hd : truthy b.detail
      · cases hr : truthy b.response
        · simp [he, hd, hr, exceptIsErr]
        · simp [he, hd, hr, exceptIsErr]
      · simp [he, hd, exceptIsErr]
    · simp [he, exceptIsErr]
  · intro hne e₁ e₂ h1 h2
    unfold aiGenerate
    rw [if_neg (by simp [hne])]
    show withRetry (aiAttempt attemptPost
      (buildGenerationRequest prompt modelName system)) 2 5000 true = _
    unfold withRetry
    rw [withRetryGo_all_fail
      (aiAttempt attemptPost (buildGenerationRequest prompt modelName system))
      2 5000 true e₂ 1 1 none rfl ?_ h2]
    · rfl
    · intro i hi1 hi2
      have : i = 1 := by omega
      subst this
      exact ⟨e₁, h1⟩

/-- C7 witness: the empty prompt is rejected without consulting the
executor, and a prompt whose every attempt returns a body with a truthy
error field exhausts the 2-attempt limit with one 5000 ms delay. -/
theorem aiGenerate_spec_witness :
    (jsTrim "").isEmpty = true ∧
    aiGenerate (fun _ _ => Except.ok (some ⟨some "boom", none, none⟩))
      "" "m" "s" = (Except.error (some GenError.emptyPrompt), []) ∧
    aiGenerate (fun _ _ => Except.ok (some ⟨some "boom", none, none⟩))
      "diff" "m" "s" =
      (Except.error (some (GenError.serviceError "boom")), [5000]) :=
  ⟨rfl,
   ((aiGenerate_spec (fun _ _ => Except.ok (some ⟨some "boom", none, none⟩))
      (fun _ _ => Except.ok none) "" "m" "s").1 rfl).1,
   (aiGenerate_spec (fun _ _ => Except.ok (some ⟨some "boom", none, none⟩))
      (fun _ _ => Except.ok none) "diff" "m" "s").2.2.2 rfl
      (GenError.serviceError "boom") (GenError.serviceError "boom") rfl rfl⟩

/-- C8: with no pull-request number configured, `pushComments` returns the
local-log success with no delays and independently of the network
operation; with a number configured but repository or token missing, it
raises the configuration error with no network attempt and no retries. -/
theorem pushComments_spec (env : PublishEnv)
    (netPost netPost' : String → Nat → Except PubError PublishResult) (message : String) :
    (truthy env.pullRequestNumber = false →
      pushComments env netPost message = (.ok localLogResult, []) ∧
      pushComments env netPost message = pushComments env netPost' message) ∧
    (truthy env.pullRequestNumber = true →
      (truthy env.repository = false ∨ truthy env.token = false) →
      pushComments env netPost message =
        (.error (some (.missingConfig
          "Missing required environment variables: INPUT_REPOSITORY or INPUT_TOKEN")), []) ∧
      pushComments env netPost message = pushComments env netPost' message) := by
  constructor
  · intro h
    have key : ∀ np : String → Nat → Except PubError PublishResult,
        pushComments env np message = (.ok localLogResult, []) := by
      intro np
      unfold pushComments
      rw [if_pos (by simp [h])]
    exact ⟨key netPost, (key netPost).trans (key netPost').symm⟩
  · intro h hmc
    have key : ∀ np : String → Nat → Except PubError PublishResult,
        pushComments env np message =
          (.error (some (.missingConfig
            "Missing required environment variables: INPUT_REPOSITORY or INPUT_TOKEN")), []) := by
      intro np
      unfold pushComments
      rw [if_neg (by simp [h]), if_pos ?_]
      rcases hmc with hr | ht
      · simp [hr]
      · simp [ht]
    exact ⟨key netPost, (key netPost).trans (key netPost').symm⟩

/-- C8 witness: with every variable unset the local-log success is
returned even under a failing network, and with a pull-request number but
no repository the configuration error is raised. -/
theorem pushComments_spec_witness :
    truthy (none : Option String) = false ∧
    pushComments ⟨none, none, none⟩
      (fun _ _ => Except.error (PubError.network "down")) "hello" =
      (Except.ok localLogResult, []) ∧
    pushComments ⟨some "5", none, some "tok"⟩
      (fun _ _ => Except.error (PubError.network "down")) "hello" =
      (Except.error (some (PubError.missingConfig
        "Missing required environment variables: INPUT_REPOSITORY or INPUT_TOKEN")), []) :=
  ⟨rfl,
   ((pushComments_spec ⟨none, none, none⟩
      (fun _ _ => Except.error (PubError.network "down"))
      (fun _ _ => Except.ok localLogResult) "hello").1 rfl).1,
   ((pushComments_spec ⟨some "5", none, some "tok"⟩
      (fun _ _ => Except.error (PubError.network "down"))
      (fun _ _ => Except.ok localLogResult) "hello").2 rfl (Or.inl rfl)).1⟩

end AiReviewPR
